import Mathlib

/-!
Verification of the protection-fee server (`src/server.js`).

The server exposes `POST /update-protection`, which validates a JSON body
`{ subtotal?, reset?, new_price?, variant_id? }`, computes a target price
(reset pass-through, fixed 2.17 below the 100 threshold, or a dynamic
3% + 0.01 formula above it), and pushes it to a remote admin API, with a
per-variant in-memory lock serializing remote writes.

Modelling conventions:
* JavaScript runtime values appearing in the request body are modelled by
  `JSVal`; numbers by `JSNum` (NaN, ±Infinity, or a finite value carried as
  an exact rational).
* Numeric literals and request payloads are carried at their decimal value.
  A finite binary64 double is an exact rational, so every comparison the
  handler performs (`< 0`, `<= 0`, `< 100`) is computed exactly as in JS.
* The one place where binary64 rounding is observable — the dynamic-price
  computation `Number((subtotal * 0.03 + 0.01).toFixed(2))` — is modelled
  with an exact integer emulation of binary64 round-to-nearest-even on
  the exact values of the literals `0.03` and `0.01` (dyadic rationals
  carried as mantissa/exponent pairs, fractions as numerator/denominator
  pairs, so every step is exact integer arithmetic).
* HTTP plumbing (express wiring, CORS, body parsing, URL construction,
  logging, the human-readable `note` strings) is out of scope per the spec.
-/

/-- A JavaScript number: NaN, +Infinity, -Infinity, or a finite value
(binary64 doubles are exact rationals, so a rational carries them). -/
inductive JSNum where
  | nan
  | inf
  | negInf
  | fin (q : ℚ)
deriving DecidableEq, Repr

/-- A JavaScript value as it can appear in a parsed JSON body field
(`undefined` stands for an absent field). -/
inductive JSVal where
  | undef
  | null
  | bool (b : Bool)
  | num (n : JSNum)
  | str (s : String)
deriving DecidableEq, Repr

/-- JS `isNaN` on a number. -/
def JSNum.isNaN : JSNum → Bool
  | .nan => true
  | _ => false

/-- JS `<` on numbers: any comparison with NaN is false; infinities ordered
at the ends; finite values compared exactly. -/
def JSNum.lt : JSNum → JSNum → Bool
  | .nan, _ => false
  | _, .nan => false
  | .negInf, .negInf => false
  | .negInf, _ => true
  | _, .negInf => false
  | .inf, _ => false
  | .fin _, .inf => true
  | .fin a, .fin b => decide (a < b)

/-- JS `<=` on numbers: false whenever NaN is involved, otherwise the
non-strict order. -/
def JSNum.le : JSNum → JSNum → Bool
  | .nan, _ => false
  | _, .nan => false
  | .negInf, _ => true
  | _, .negInf => false
  | _, .inf => true
  | .inf, .fin _ => false
  | .fin a, .fin b => decide (a ≤ b)

/-- JS truthiness of a value (used by `variant_id || DEFAULT`). -/
def JSVal.truthy : JSVal → Bool
  | .undef => false
  | .null => false
  | .bool b => b
  | .num .nan => false
  | .num .inf => true
  | .num .negInf => true
  | .num (.fin q) => decide (q ≠ 0)
  | .str s => decide (s ≠ "")

/-- JS `a || b` specialised to picking a default: yields `a` when truthy,
otherwise `b`. -/
def jsOr (a b : JSVal) : JSVal := if a.truthy then a else b

/-- The numeric payload of a value; only consulted after the handler's
`typeof x === 'number'` check has succeeded. -/
def JSVal.toNum : JSVal → JSNum
  | .num n => n
  | _ => .nan

-- ---------- CONFIG constants of server.js ----------

/-- `PROTECTION_VARIANT_DYNAMIC = '45626932789401'`. -/
def PROTECTION_VARIANT_DYNAMIC : String := "45626932789401"

/-- `PROTECTION_THRESHOLD = 100`. -/
def PROTECTION_THRESHOLD : ℚ := 100

/-- The binary64 double written `0.03` in the source (`PROTECTION_PERCENT`)
has exact value `1080863910568919 / 2^55`, carried as a mantissa/exponent
pair. -/
def PROTECTION_PERCENT_FP : ℤ × ℤ := (1080863910568919, -55)

/-- The binary64 double written `0.01` in the source
(`PROTECTION_BASE_INCREMENT`) has exact value `5764607523034235 / 2^59`. -/
def PROTECTION_BASE_INCREMENT_FP : ℤ × ℤ := (5764607523034235, -59)

-- ---------- binary64 emulation (exact integer arithmetic) ----------
-- A fraction `a / b` (with `b > 0`) stands for the exact real value of an
-- intermediate product or sum; a dyadic pair `(m, e)` stands for the double
-- of value `m · 2^e`.

/-- Scale the fraction `a / b` (both positive) into the binary64 significand
window `[2^52, 2^53)` by doubling `a` or `b`, returning the adjusted
fraction and the binary exponent taken out (the value `(a/b)·2^e` is
preserved at each step). Fuel-based structural recursion; 1200 steps cover
the full double exponent range. -/
def fpScaleFrac : ℕ → ℤ → ℤ → ℤ → ℤ × ℤ × ℤ
  | 0, a, b, e => (a, b, e)
  | fuel + 1, a, b, e =>
    if a < 4503599627370496 * b then fpScaleFrac fuel (2 * a) b (e - 1)
    else if 9007199254740992 * b ≤ a then fpScaleFrac fuel a (2 * b) (e + 1)
    else (a, b, e)

/-- Round the fraction `a / b` (`b > 0`) to the nearest integer, ties to
even (`fl` is the floor, `r2` twice the remainder, compared against `b`). -/
def rneFrac (a b : ℤ) : ℤ :=
  let fl := Int.fdiv a b
  let r2 := 2 * (a - fl * b)
  if r2 < b then fl
  else if b < r2 then fl + 1
  else if fl % 2 = 0 then fl else fl + 1

/-- Binary64 rounding of a positive fraction `a / b`: scale into the
significand window, then round to nearest, ties to even. The normal range
is assumed (it covers every value this program computes). -/
def fpFracPos (a b : ℤ) : ℤ × ℤ :=
  let s := fpScaleFrac 1200 a b 0
  (rneFrac s.1 s.2.1, s.2.2)

/-- Binary64 rounding of an arbitrary fraction `a / b` with `b > 0`. -/
def fpFrac (a b : ℤ) : ℤ × ℤ :=
  if a = 0 then (0, 0)
  else if a < 0 then
    let p := fpFracPos (-a) b
    (-p.1, p.2)
  else fpFracPos a b

/-- Exact sum of two dyadic values (align exponents, add mantissas). -/
def dyadicAdd (x y : ℤ × ℤ) : ℤ × ℤ :=
  if x.2 ≤ y.2 then (x.1 + y.1 * 2 ^ (y.2 - x.2).toNat, x.2)
  else (x.1 * 2 ^ (x.2 - y.2).toNat + y.1, y.2)

/-- Binary64 rounding of an exact dyadic value. -/
def fpDyadic (x : ℤ × ℤ) : ℤ × ℤ :=
  if 0 ≤ x.2 then fpFrac (x.1 * 2 ^ x.2.toNat) 1
  else fpFrac x.1 (2 ^ (-x.2).toNat)

/-- ECMA `Number.prototype.toFixed(2)` as a count of cents on the exact
value `x = m·2^e` of a double: it picks the integer `n` minimising
`|n/100 - x|`, ties towards the larger `n`, i.e. `⌊100·x + 1/2⌋`
(for `e < 0` this is `⌊(200·m + 2^(-e)) / 2^(1-e)⌋`). -/
def toFixed2Cents (x : ℤ × ℤ) : ℤ :=
  if 0 ≤ x.2 then 100 * x.1 * 2 ^ x.2.toNat
  else Int.fdiv (200 * x.1 + 2 ^ (-x.2).toNat) (2 ^ ((-x.2).toNat + 1))

/-- The dynamic-price computation of `server.js` lines 122–123 in cents:
`feeRaw = subtotal * PROTECTION_PERCENT;`
`targetPrice = Number((feeRaw + PROTECTION_BASE_INCREMENT).toFixed(2))`,
with the multiplication and addition performed in binary64 on the exact
values of the doubles involved (`s = s.num / s.den` exactly). -/
def dynPriceCents (s : ℚ) : ℤ :=
  let feeRaw := fpFrac (s.num * PROTECTION_PERCENT_FP.1) ((s.den : ℤ) * 2 ^ (55 : ℕ))
  let target := fpDyadic (dyadicAdd feeRaw PROTECTION_BASE_INCREMENT_FP)
  toFixed2Cents target

/-- The dynamic target price as a JS number. `Number("X.YZ")` produces the
double nearest `X.YZ`; the model carries that value at decimal precision
(`cents/100`), which is observationally equal through the remote layer's
final `toFixed(2)`. Non-finite subtotals propagate as in JS:
`Infinity*0.03 + 0.01 = Infinity`, `(Infinity).toFixed(2) = "Infinity"`,
`Number("Infinity") = Infinity`. -/
def jsDynPrice : JSNum → JSNum
  | .nan => .nan
  | .inf => .inf
  | .negInf => .negInf
  | .fin s => .fin (mkRat (dynPriceCents s) 100)

-- ---------- request validation and routing ----------

/-- The parsed body of a `POST /update-protection` request
(`const { subtotal, reset, new_price, variant_id } = req.body`). -/
structure PriceRequest where
  subtotal : JSVal
  reset : JSVal
  new_price : JSVal
  variant_id : JSVal
deriving DecidableEq, Repr

/-- The strict-equality guard `reset === true` (line 85): only the boolean
value `true` selects the reset branch. -/
def isResetTrue : JSVal → Bool
  | .bool true => true
  | _ => false

/-- Line 86: `new_price` passes validation iff it is a number, not NaN, and
not `<= 0` (the negation of
`typeof new_price !== 'number' || isNaN(new_price) || new_price <= 0`). -/
def validNewPrice : JSVal → Bool
  | .num n => !n.isNaN && !(n.le (.fin 0))
  | _ => false

/-- Line 102: `subtotal` passes validation iff it is a number, not NaN, and
not `< 0` (the negation of
`typeof subtotal !== 'number' || isNaN(subtotal) || subtotal < 0`). -/
def validSubtotal : JSVal → Bool
  | .num n => !n.isNaN && !(JSNum.lt n (.fin 0))
  | _ => false

/-- Which of the three pricing paths fired. -/
inductive Mode where
  | reset
  | fixed
  | dynamic
deriving DecidableEq, Repr

/-- Outcome of the handler's routing stage: an immediate 400, or a remote
price update with the chosen mode, lock/variant key and price. -/
inductive RouteResult where
  | badRequest (error : String)
  | callRemote (mode : Mode) (key : JSVal) (price : JSNum)
deriving DecidableEq, Repr

/-- Whether routing ended in a 400. -/
def RouteResult.isBad : RouteResult → Bool
  | .badRequest _ => true
  | _ => false

/-- The remote call the routing stage decided on, if any. -/
def RouteResult.callData : RouteResult → Option (Mode × JSVal × JSNum)
  | .badRequest _ => none
  | .callRemote m k p => some (m, k, p)

/-- The routing logic of `app.post('/update-protection')` (lines 80–135):
strict `reset === true` check; `new_price` validation then reset update on
`variant_id || PROTECTION_VARIANT_DYNAMIC`; otherwise `subtotal` validation,
then fixed price 2.17 below the threshold or the dynamic formula at or above
it — the two calculation branches always target
`PROTECTION_VARIANT_DYNAMIC`. -/
def route (req : PriceRequest) : RouteResult :=
  if isResetTrue req.reset then
    if !validNewPrice req.new_price then
      .badRequest "Invalid new_price for reset"
    else
      .callRemote .reset (jsOr req.variant_id (.str PROTECTION_VARIANT_DYNAMIC))
        req.new_price.toNum
  else
    if !validSubtotal req.subtotal then
      .badRequest "subtotal must be a positive number (USD)"
    else if JSNum.lt req.subtotal.toNum (.fin PROTECTION_THRESHOLD) then
      .callRemote .fixed (.str PROTECTION_VARIANT_DYNAMIC) (.fin (mkRat 217 100))
    else
      .callRemote .dynamic (.str PROTECTION_VARIANT_DYNAMIC)
        (jsDynPrice req.subtotal.toNum)

/-- Modelled from the spec: the spec's pricing rule for the dynamic branch,
`round(subtotal × 0.03 + 0.01, 2 decimal places)` with standard half-up
rounding, in cents — the exact real computation `⌊(s·3/100 + 1/100)·100 + 1/2⌋
= ⌊3·s + 3/2⌋ = ⌊(6·s.num + 3·s.den) / (2·s.den)⌋`, written on the
numerator/denominator so it evaluates by integer arithmetic. This is the
reference the code's binary64 computation is compared against. -/
def specRoundCents (s : ℚ) : ℤ :=
  Int.fdiv (6 * s.num + 3 * (s.den : ℤ)) (2 * (s.den : ℤ))

-- ---------- remote admin API call (updateVariantPrice) ----------

/-- The remote system's canonical representation of the updated variant
(`json.variant`): its id and the price as stored remotely. -/
structure Variant where
  id : ℤ
  price : String
deriving DecidableEq, Repr

/-- The remote admin API's response to the PUT request, as far as
`updateVariantPrice` consumes it: `res.ok`, `res.status`, `res.statusText`,
the body text read on failure, and the parsed variant returned on
success. -/
structure RemoteResp where
  ok : Bool
  status : ℕ
  statusText : String
  bodyText : String
  variant : Variant
deriving DecidableEq, Repr

/-- The error thrown by `updateVariantPrice` on a non-success response:
`new Error(\x60Shopify Admin API error: ... \x60)` with `err.status =
res.status` attached. -/
structure RemoteError where
  message : String
  status : ℕ
deriving DecidableEq, Repr

/-- The failure message built at `server.js` line 69. -/
def remoteErrMsg (resp : RemoteResp) : String :=
  "Shopify Admin API error: " ++ toString resp.status ++ " " ++ resp.statusText
    ++ " - " ++ resp.bodyText

/-- `updateVariantPrice` (lines 47–75) as a function of the remote response:
on `res.ok` it returns the remote variant, otherwise it throws a
`RemoteError` carrying the message (status, statusText and body folded in)
and the remote status. URL and request-body construction are outbound
plumbing not modelled here (the price is formatted with `toFixed(2)` into
the body, which is why prices are carried at decimal precision). -/
def updateVariantPrice (resp : RemoteResp) : Except RemoteError Variant :=
  if resp.ok then .ok resp.variant
  else .error ⟨remoteErrMsg resp, resp.status⟩

/-- The endpoint's HTTP response: 200 `{success:true, variant_id, new_price,
note}` (note strings omitted — presentation only), 400 or 500 with
`{success:false, error}`. -/
inductive HttpResp where
  | ok200 (variant_id : ℤ) (new_price : String)
  | err400 (error : String)
  | err500 (error : String)
deriving DecidableEq, Repr

/-- The full request handler: route, then (only when routing decided on a
remote call) perform the guarded remote update and map its outcome —
success to the 200 envelope built from the remote's variant, a thrown
`RemoteError` to a 500 with `err.message` (the catch at lines 136–139). -/
def handle (req : PriceRequest) (resp : RemoteResp) : HttpResp :=
  match route req with
  | .badRequest e => .err400 e
  | .callRemote _ _ _ =>
    match updateVariantPrice resp with
    | .ok v => .ok200 v.id v.price
    | .error e => .err500 e.message

-- ---------- the per-variant lock (withLock, lines 23–34) ----------

/-- Program counter of one request's passage through `withLock`: spinning in
the poll loop, holding the lock while the remote call is in flight, or
finished (lock released). -/
inductive LockPC where
  | waiting
  | critical
  | finished
deriving DecidableEq, Repr

/-- The process-wide picture of `n` in-flight `withLock key fn` calls: each
task's program counter, plus the key set of the `locks` map (an entry is
only ever `true`, so the map is its domain). -/
structure LockState (n : ℕ) (K : Type) where
  pc : Fin n → LockPC
  busy : List K

/-- Initial state: every task is at the top of the poll loop, the `locks`
map is empty. -/
def LockState.init (n : ℕ) (K : Type) : LockState n K :=
  ⟨fun _ => .waiting, []⟩

/-- One scheduler step of the `withLock` protocol, for fixed per-task keys
`key i`. JavaScript's event loop runs the code between two `await`s
atomically, which is what makes each step atomic:
* `acquire`: the poll loop reads `locks.get(key)` falsy and immediately runs
  `locks.set(key, true)` with no `await` in between, entering `fn`. (A task
  whose key is busy re-enters the poll loop, leaving the state unchanged —
  a no-op step needs no transition.)
* `release`: `fn` completes — `outcome` is its normal return or thrown
  error, covering both — and the `finally` clause runs
  `locks.delete(key)` unconditionally. -/
inductive LockStep {n : ℕ} {K : Type} [DecidableEq K] (key : Fin n → K) :
    LockState n K → LockState n K → Prop
  | acquire (s : LockState n K) (i : Fin n)
      (hw : s.pc i = .waiting) (hfree : key i ∉ s.busy) :
      LockStep key s ⟨fun j => if j = i then .critical else s.pc j, key i :: s.busy⟩
  | release (s : LockState n K) (i : Fin n) (outcome : Except RemoteError Variant)
      (hc : s.pc i = .critical) :
      LockStep key s ⟨fun j => if j = i then .finished else s.pc j, s.busy.erase (key i)⟩

/-- States reachable from the initial state by interleaved steps. -/
def LockReachable {n : ℕ} {K : Type} [DecidableEq K] (key : Fin n → K)
    (s : LockState n K) : Prop :=
  Relation.ReflTransGen (LockStep key) (LockState.init n K) s

/-- The inductive invariant of the lock protocol: (single owner) two tasks
holding the lock have distinct keys; (exact bookkeeping) the `locks` map
holds a key exactly when some task with that key is in its critical
section; (no duplicates) the map, being a map, has one entry per key. -/
def LockInv {n : ℕ} {K : Type} (key : Fin n → K) (s : LockState n K) : Prop :=
  (∀ i j, s.pc i = .critical → s.pc j = .critical → key i = key j → i = j) ∧
  (∀ k, k ∈ s.busy ↔ ∃ i, s.pc i = .critical ∧ key i = k) ∧
  s.busy.Nodup

theorem lockInv_init {n : ℕ} {K : Type} (key : Fin n → K) :
    LockInv key (LockState.init n K) := by
  refine ⟨fun i j hi _ _ => ?_, fun k => ?_, List.nodup_nil⟩
  · simp [LockState.init] at hi
  · simp [LockState.init]

theorem lockInv_step {n : ℕ} {K : Type} [DecidableEq K] {key : Fin n → K}
    {s s' : LockState n K} (hinv : LockInv key s) (hstep : LockStep key s s') :
    LockInv key s' := by
  obtain ⟨hmux, hbook, hnd⟩ := hinv
  cases hstep with
  | acquire i hw hfree =>
    refine ⟨?_, ?_, ?_⟩
    · intro a b ha hb hk
      by_cases hai : a = i <;> by_cases hbi : b = i
      · rw [hai, hbi]
      · exfalso
        simp only [hbi, if_neg] at hb
        have hmem : key b ∈ s.busy := (hbook (key b)).2 ⟨b, hb, rfl⟩
        rw [hai] at hk
        rw [← hk] at hmem
        exact hfree hmem
      · exfalso
        simp only [hai, if_neg] at ha
        have hmem : key a ∈ s.busy := (hbook (key a)).2 ⟨a, ha, rfl⟩
        rw [hbi] at hk
        rw [hk] at hmem
        exact hfree hmem
      · simp only [hai, if_neg, hbi] at ha hb
        exact hmux a b ha hb hk
    · intro k
      constructor
      · intro hk
        rcases List.mem_cons.mp hk with h | h
        · exact ⟨i, by simp, h.symm⟩
        · obtain ⟨j, hj, hkj⟩ := (hbook k).1 h
          have hji : j ≠ i := fun e => by rw [e, hw] at hj; cases hj
          exact ⟨j, by simp [hji, hj], hkj⟩
      · rintro ⟨j, hj, hkj⟩
        by_cases hji : j = i
        · subst hji; exact hkj ▸ List.mem_cons_self _ _
        · simp only [hji, if_neg] at hj
          exact List.mem_cons_of_mem _ ((hbook k).2 ⟨j, hj, hkj⟩)
    · exact List.Nodup.cons hfree hnd
  | release i outcome hc =>
    refine ⟨?_, ?_, ?_⟩
    · intro a b ha hb hk
      have hai : a ≠ i := fun e => by simp [e] at ha
      have hbi : b ≠ i := fun e => by simp [e] at hb
      simp only [hai, hbi, if_neg] at ha hb
      exact hmux a b ha hb hk
    · intro k
      constructor
      · intro hk
        have hk' : k ∈ s.busy := List.mem_of_mem_erase hk
        have hkne : k ≠ key i := by
          intro e
          exact (List.Nodup.not_mem_erase hnd) (e ▸ hk)
        obtain ⟨j, hj, hkj⟩ := (hbook k).1 hk'
        have hji : j ≠ i := fun e => hkne (by rw [← hkj, e])
        exact ⟨j, by simp [hji, hj], hkj⟩
      · rintro ⟨j, hj, hkj⟩
        have hji : j ≠ i := fun e => by simp [e] at hj
        simp only [hji, if_neg] at hj
        have hkne : k ≠ key i := by
          intro e
          exact hji (hmux j i hj hc (by rw [hkj, e]))
        exact (List.mem_erase_of_ne hkne).2 ((hbook k).2 ⟨j, hj, hkj⟩)
    · exact List.Nodup.erase _ hnd

theorem lockReachable_inv {n : ℕ} {K : Type} [DecidableEq K] {key : Fin n → K}
    {s : LockState n K} (hr : LockReachable key s) : LockInv key s := by
  induction hr with
  | refl => exact lockInv_init key
  | tail _ hstep ih => exact lockInv_step ih hstep

-- ---------- helper lemmas ----------

theorem isResetTrue_eq_false {v : JSVal} (h : v ≠ .bool true) :
    isResetTrue v = false := by
  cases v with
  | bool b => cases b with
    | false => rfl
    | true => exact absurd rfl h
  | undef => rfl
  | null => rfl
  | num n => rfl
  | str s => rfl

theorem isResetTrue_eq_false_of_falsy {v : JSVal} (h : v.truthy = false) :
    isResetTrue v = false :=
  isResetTrue_eq_false (fun e => by rw [e] at h; cases h)

-- ---------- the claims ----------

/-- C1: for every request with `reset` falsy and a numeric subtotal `s` with
`0 ≤ s < 100`, the handler takes the fixed-price path and the price passed
to the remote update call is exactly 2.17. -/
theorem fixed_price_below_threshold (sub rst np vid : JSVal) (s : ℚ)
    (hr : rst.truthy = false) (hs : sub = .num (.fin s))
    (h0 : 0 ≤ s) (h1 : s < 100) :
    route ⟨sub, rst, np, vid⟩ =
      .callRemote .fixed (.str PROTECTION_VARIANT_DYNAMIC) (.fin (mkRat 217 100)) := by
  subst hs
  have hrt : isResetTrue rst = false := isResetTrue_eq_false_of_falsy hr
  have hv : decide (s < 0) = false := decide_eq_false (not_lt.2 h0)
  have ht : decide (s < (100 : ℚ)) = true := decide_eq_true h1
  simp [route, hrt, validSubtotal, JSNum.isNaN, JSNum.lt, JSVal.toNum,
    PROTECTION_THRESHOLD, hv, ht]

/-- C1 witness: subtotal 50 takes the fixed-price path with price 2.17. -/
theorem fixed_price_below_threshold_witness :
    route ⟨.num (.fin 50), .undef, .undef, .undef⟩ =
      .callRemote .fixed (.str PROTECTION_VARIANT_DYNAMIC) (.fin (mkRat 217 100)) :=
  fixed_price_below_threshold _ _ _ _ 50 rfl rfl (by decide) (by decide)

set_option maxRecDepth 8000 in
/-- C2 counterexample: at subtotal 100.5 the code's binary64 computation
passes 3.02 to the remote call, while `round(0.03·100.5 + 0.01, 2)` under
standard half-up rounding is 3.03 — the claimed equality fails. -/
theorem dynamic_price_not_half_up_at_100_5 :
    route ⟨.num (.fin (mkRat 201 2)), .undef, .undef, .undef⟩ =
      .callRemote .dynamic (.str PROTECTION_VARIANT_DYNAMIC) (.fin (mkRat 302 100)) ∧
    specRoundCents (mkRat 201 2) = 303 ∧
    (JSNum.fin (mkRat 302 100)) ≠ (JSNum.fin (mkRat 303 100)) :=
  ⟨by decide, by decide, by decide⟩

/-- C2 (amended): for every request with `reset` falsy and a numeric
subtotal `s ≥ 100`, the handler takes the dynamic path and the price passed
to the remote update call is `Number((s·0.03 + 0.01).toFixed(2))` computed
in binary64 arithmetic; at s=150, s=100 and s=1000 this agrees with
half-up rounding, yielding 4.51, 3.01 and 30.01. -/
theorem dynamic_price_binary64 (sub rst np vid : JSVal) (s : ℚ)
    (hr : rst.truthy = false) (hs : sub = .num (.fin s)) (h1 : 100 ≤ s) :
    route ⟨sub, rst, np, vid⟩ =
      .callRemote .dynamic (.str PROTECTION_VARIANT_DYNAMIC)
        (.fin (mkRat (dynPriceCents s) 100)) ∧
    dynPriceCents 150 = 451 ∧ dynPriceCents 100 = 301 ∧ dynPriceCents 1000 = 3001 ∧
    specRoundCents 150 = 451 ∧ specRoundCents 100 = 301 ∧ specRoundCents 1000 = 3001 := by
  subst hs
  have hrt : isResetTrue rst = false := isResetTrue_eq_false_of_falsy hr
  have h0 : ¬(s < 0) := not_lt.2 (le_trans (by norm_num) h1)
  have hv : decide (s < 0) = false := decide_eq_false h0
  have ht : decide (s < (100 : ℚ)) = false := decide_eq_false (not_lt.2 h1)
  refine ⟨?_, ?_, ?_, ?_, ?_, ?_, ?_⟩
  · simp [route, hrt, validSubtotal, JSNum.isNaN, JSNum.lt, JSVal.toNum,
      PROTECTION_THRESHOLD, hv, ht, jsDynPrice]
  all_goals decide

set_option maxRecDepth 8000 in
/-- C2 witness: the amended statement instantiated at subtotal 150. -/
theorem dynamic_price_binary64_witness :
    route ⟨.num (.fin 150), .undef, .undef, .undef⟩ =
      .callRemote .dynamic (.str PROTECTION_VARIANT_DYNAMIC)
        (.fin (mkRat (dynPriceCents 150) 100)) :=
  (dynamic_price_binary64 (.num (.fin 150)) .undef .undef .undef 150
    rfl rfl (by decide)).1

/-- C3: for every request with `reset = true` and a valid (positive finite)
`new_price`, the price passed to the remote update call is exactly
`new_price`, whatever `subtotal` is — no calculation rule is applied, and
the variant key is `variant_id || PROTECTION_VARIANT_DYNAMIC`. -/
theorem reset_price_passthrough (sub vid : JSVal) (q : ℚ) (hq : 0 < q) :
    route ⟨sub, .bool true, .num (.fin q), vid⟩ =
      .callRemote .reset (jsOr vid (.str PROTECTION_VARIANT_DYNAMIC)) (.fin q) := by
  have hv : decide (q ≤ 0) = false := decide_eq_false (not_le.2 hq)
  simp [route, isResetTrue, validNewPrice, JSNum.isNaN, JSNum.le, JSVal.toNum, hv]

/-- C3 witness: reset with new_price 9.99 and subtotal 3 present passes
9.99 through. -/
theorem reset_price_passthrough_witness :
    route ⟨.num (.fin 3), .bool true, .num (.fin (mkRat 999 100)), .undef⟩ =
      .callRemote .reset (jsOr .undef (.str PROTECTION_VARIANT_DYNAMIC))
        (.fin (mkRat 999 100)) :=
  reset_price_passthrough _ _ (mkRat 999 100) (by decide)

/-- C4 counterexample: `+Infinity` is not rejected — a reset request with
`new_price = Infinity` and a calculation request with `subtotal = Infinity`
both pass validation and reach the remote call, so validation does not
enforce finiteness. -/
theorem infinity_accepted :
    route ⟨.undef, .bool true, .num .inf, .undef⟩ =
      .callRemote .reset (.str PROTECTION_VARIANT_DYNAMIC) .inf ∧
    route ⟨.num .inf, .undef, .undef, .undef⟩ =
      .callRemote .dynamic (.str PROTECTION_VARIANT_DYNAMIC) .inf :=
  ⟨by decide, by decide⟩

/-- C4 (amended): validation rejects non-numbers, NaN, and wrong-signed
values, but does not enforce finiteness. With `reset = true` the handler
proceeds (no 400) iff `new_price` is a positive finite number or
`+Infinity`; with `reset` not exactly `true` it proceeds iff `subtotal` is
a non-negative finite number or `+Infinity`. -/
theorem validation_no_finiteness_check (req : PriceRequest) :
    (isResetTrue req.reset = true →
      ((route req).isBad = false ↔
        (∃ q : ℚ, req.new_price = .num (.fin q) ∧ 0 < q) ∨
          req.new_price = .num .inf)) ∧
    (isResetTrue req.reset = false →
      ((route req).isBad = false ↔
        (∃ q : ℚ, req.subtotal = .num (.fin q) ∧ 0 ≤ q) ∨
          req.subtotal = .num .inf)) := by
  constructor
  · intro hR
    have hbad : (route req).isBad = false ↔ validNewPrice req.new_price = true := by
      cases hnp : validNewPrice req.new_price <;>
        simp [route, hR, hnp, RouteResult.isBad]
    rw [hbad]
    cases hnp : req.new_price with
    | num n =>
      cases n with
      | nan => simp [validNewPrice, JSNum.isNaN]
      | inf => simp [validNewPrice, JSNum.isNaN, JSNum.le]
      | negInf => simp [validNewPrice, JSNum.isNaN, JSNum.le]
      | fin q =>
        have he : validNewPrice (.num (.fin q)) = !decide (q ≤ 0) := rfl
        rw [he, Bool.not_eq_true', decide_eq_false_iff_not, not_le]
        constructor
        · intro h
          exact Or.inl ⟨q, rfl, h⟩
        · rintro (⟨q', hq', h⟩ | h)
          · cases hq'
            exact h
          · exact absurd h (by simp)
    | undef => simp [validNewPrice]
    | null => simp [validNewPrice]
    | bool b => simp [validNewPrice]
    | str t => simp [validNewPrice]
  · intro hR
    have hbad : (route req).isBad = false ↔ validSubtotal req.subtotal = true := by
      cases hsv : validSubtotal req.subtotal with
      | false => simp [route, hR, hsv, RouteResult.isBad]
      | true =>
        cases hlt : JSNum.lt req.subtotal.toNum (.fin PROTECTION_THRESHOLD) <;>
          simp [route, hR, hsv, hlt, RouteResult.isBad]
    rw [hbad]
    cases hsv : req.subtotal with
    | num n =>
      cases n with
      | nan => simp [validSubtotal, JSNum.isNaN]
      | inf => simp [validSubtotal, JSNum.isNaN, JSNum.lt]
      | negInf => simp [validSubtotal, JSNum.isNaN, JSNum.lt]
      | fin q =>
        have he : validSubtotal (.num (.fin q)) = !decide (q < 0) := rfl
        rw [he, Bool.not_eq_true', decide_eq_false_iff_not, not_lt]
        constructor
        · intro h
          exact Or.inl ⟨q, rfl, h⟩
        · rintro (⟨q', hq', h⟩ | h)
          · cases hq'
            exact h
          · exact absurd h (by simp)
    | undef => simp [validSubtotal]
    | null => simp [validSubtotal]
    | bool b => simp [validSubtotal]
    | str t => simp [validSubtotal]

/-- C4 witness: the amended characterisation applied to a reset request
with `new_price = +Infinity`: it is accepted (no 400). -/
theorem validation_no_finiteness_check_witness :
    (route ⟨.undef, .bool true, .num .inf, .undef⟩).isBad = false :=
  ((validation_no_finiteness_check ⟨.undef, .bool true, .num .inf, .undef⟩).1 rfl).mpr
    (Or.inr rfl)

/-- C5: every request that fails validation gets a 400 `{success:false,
error}` response — for every possible remote response, i.e. independently of
the remote — and routing produces no remote call at all. -/
theorem invalid_input_no_remote_call (req : PriceRequest)
    (hfail : (isResetTrue req.reset = true ∧ validNewPrice req.new_price = false) ∨
      (isResetTrue req.reset = false ∧ validSubtotal req.subtotal = false)) :
    (∃ msg, route req = .badRequest msg ∧
      ∀ resp : RemoteResp, handle req resp = .err400 msg) ∧
    (route req).callData = none := by
  have hroute : ∃ msg, route req = .badRequest msg := by
    rcases hfail with ⟨hR, hv⟩ | ⟨hR, hv⟩
    · exact ⟨"Invalid new_price for reset", by simp [route, hR, hv]⟩
    · exact ⟨"subtotal must be a positive number (USD)", by simp [route, hR, hv]⟩
  obtain ⟨msg, hmsg⟩ := hroute
  refine ⟨⟨msg, hmsg, fun resp => ?_⟩, ?_⟩
  · simp [handle, hmsg]
  · simp [RouteResult.callData, hmsg]

/-- C5 witness: the all-absent request (reset falsy, subtotal missing) is
rejected without any remote call. -/
theorem invalid_input_no_remote_call_witness :
    (route ⟨.undef, .undef, .undef, .undef⟩).callData = none :=
  (invalid_input_no_remote_call ⟨.undef, .undef, .undef, .undef⟩
    (Or.inr ⟨rfl, rfl⟩)).2

/-- C6 counterexample: a calculation-mode request that supplies
`variant_id = "999"` still has its remote call made against the configured
default variant, not the supplied one — the claim fails for the
below-threshold fixed mode (and likewise the dynamic mode). -/
theorem variant_id_ignored_in_calculation :
    route ⟨.num (.fin 50), .undef, .undef, .str "999"⟩ =
      .callRemote .fixed (.str PROTECTION_VARIANT_DYNAMIC) (.fin (mkRat 217 100)) ∧
    (JSVal.str "999") ≠ .str PROTECTION_VARIANT_DYNAMIC :=
  ⟨by decide, by decide⟩

/-- C6 (amended): the variant identifier used for the remote update is
`variant_id || default` in reset mode only; in the below-threshold fixed
mode and the above-threshold dynamic mode the configured default constant
is always used, regardless of any supplied `variant_id`. -/
theorem variant_key_per_mode (req : PriceRequest) (m : Mode) (k : JSVal)
    (p : JSNum) (hcall : route req = .callRemote m k p) :
    (m = .reset → k = jsOr req.variant_id (.str PROTECTION_VARIANT_DYNAMIC)) ∧
    (m ≠ .reset → k = .str PROTECTION_VARIANT_DYNAMIC) := by
  unfold route at hcall
  by_cases hR : isResetTrue req.reset = true
  · rw [if_pos hR] at hcall
    by_cases hv : validNewPrice req.new_price = true
    · rw [hv] at hcall
      simp only [Bool.not_true, Bool.false_eq_true, if_false] at hcall
      cases hcall
      exact ⟨fun _ => rfl, fun hm => absurd rfl hm⟩
    · rw [Bool.not_eq_true] at hv
      rw [hv] at hcall
      simp only [Bool.not_false, if_true] at hcall
      cases hcall
  · rw [Bool.not_eq_true] at hR
    rw [hR] at hcall
    simp only [Bool.false_eq_true, if_false] at hcall
    by_cases hv : validSubtotal req.subtotal = true
    · rw [hv] at hcall
      simp only [Bool.not_true, Bool.false_eq_true, if_false] at hcall
      by_cases hlt : JSNum.lt req.subtotal.toNum (.fin PROTECTION_THRESHOLD) = true
      · rw [if_pos hlt] at hcall
        cases hcall
        exact ⟨fun hm => absurd hm (by decide), fun _ => rfl⟩
      · rw [if_neg hlt] at hcall
        cases hcall
        exact ⟨fun hm => absurd hm (by decide), fun _ => rfl⟩
    · rw [Bool.not_eq_true] at hv
      rw [hv] at hcall
      simp only [Bool.not_false, if_true] at hcall
      cases hcall

/-- C6 witness: the amended statement applied to the counterexample
request — its non-reset call uses the default variant key. -/
theorem variant_key_per_mode_witness :
    (JSVal.str PROTECTION_VARIANT_DYNAMIC) = .str PROTECTION_VARIANT_DYNAMIC :=
  (variant_key_per_mode ⟨.num (.fin 50), .undef, .undef, .str "999"⟩ .fixed
    (.str PROTECTION_VARIANT_DYNAMIC) (.fin (mkRat 217 100)) (by decide)).2
    (by decide)

/-- C7: mutual exclusion — in every reachable state of the `withLock`
protocol, two in-flight remote calls (critical sections) with the same
variant key are the same task: price-update calls for one variant never
execute concurrently. -/
theorem withLock_mutual_exclusion {n : ℕ} {K : Type} [DecidableEq K]
    (key : Fin n → K) (s : LockState n K) (hr : LockReachable key s)
    (i j : Fin n) (hi : s.pc i = .critical) (hj : s.pc j = .critical)
    (hk : key i = key j) : i = j :=
  (lockReachable_inv hr).1 i j hi hj hk

/-- A fixed two-task scenario on one variant key, used to instantiate the
lock theorems: task 0 has acquired the lock from the initial state. -/
def twoTasksKey : Fin 2 → String := fun _ => "45626932789401"

/-- The state after task 0's `acquire` step. -/
def oneHolderState : LockState 2 String :=
  ⟨fun j => if j = (0 : Fin 2) then .critical else (LockState.init 2 String).pc j,
    twoTasksKey 0 :: (LockState.init 2 String).busy⟩

theorem oneHolderState_reachable : LockReachable twoTasksKey oneHolderState :=
  Relation.ReflTransGen.single
    (LockStep.acquire (LockState.init 2 String) 0 rfl (by simp [LockState.init]))

/-- C7 witness: the mutual-exclusion theorem applied in the concrete
reachable one-holder state (both indices the holding task). -/
theorem withLock_mutual_exclusion_witness : (0 : Fin 2) = 0 :=
  withLock_mutual_exclusion twoTasksKey oneHolderState oneHolderState_reachable
    0 0 rfl rfl rfl

/-- C8: from any reachable state, a task holding the lock can complete with
any outcome — a normal return or a thrown error alike — and the resulting
`release` step removes its key from the busy map unconditionally; moreover
in every reachable state the busy map holds a key exactly when some task
with that key has an update in flight (no stale entries). -/
theorem withLock_release_unconditional {n : ℕ} {K : Type} [DecidableEq K]
    (key : Fin n → K) (s : LockState n K) (hr : LockReachable key s)
    (i : Fin n) (outcome : Except RemoteError Variant) (hc : s.pc i = .critical) :
    LockStep key s
      ⟨fun j => if j = i then .finished else s.pc j, s.busy.erase (key i)⟩ ∧
    key i ∉ s.busy.erase (key i) ∧
    (∀ k, k ∈ s.busy ↔ ∃ t, s.pc t = .critical ∧ key t = k) :=
  ⟨LockStep.release s i outcome hc,
    List.Nodup.not_mem_erase (lockReachable_inv hr).2.2,
    (lockReachable_inv hr).2.1⟩

/-- C8 witness: task 0, holding the lock in the concrete reachable state,
completes with a thrown `RemoteError`; its key is gone from the busy map
after the release. -/
theorem withLock_release_unconditional_witness :
    twoTasksKey 0 ∉ oneHolderState.busy.erase (twoTasksKey 0) :=
  (withLock_release_unconditional twoTasksKey oneHolderState
    oneHolderState_reachable 0 (.error ⟨"boom", 422⟩) rfl).2.1

/-- C9: whenever routing decided on a remote call and the remote admin API
answers with a non-success status, the endpoint responds 500 with
`{success:false, error}` whose error message contains the remote status
code, and the thrown `RemoteError` carries the remote status and the
response body (folded into the message). -/
theorem remote_error_surfaced (req : PriceRequest) (resp : RemoteResp)
    (m : Mode) (k : JSVal) (p : JSNum)
    (hcall : route req = .callRemote m k p) (hok : resp.ok = false) :
    handle req resp = .err500 (remoteErrMsg resp) ∧
    updateVariantPrice resp = .error ⟨remoteErrMsg resp, resp.status⟩ ∧
    (∃ a b, remoteErrMsg resp = a ++ (toString resp.status ++ b)) ∧
    (∃ a, remoteErrMsg resp = a ++ resp.bodyText) := by
  refine ⟨?_, ?_, ?_, ?_⟩
  · rw [handle, hcall]
    simp [updateVariantPrice, hok]
  · simp [updateVariantPrice, hok]
  · exact ⟨"Shopify Admin API error: ",
      " " ++ resp.statusText ++ " - " ++ resp.bodyText, by
        simp [remoteErrMsg, String.append_assoc]⟩
  · exact ⟨"Shopify Admin API error: " ++ toString resp.status ++ " "
      ++ resp.statusText ++ " - ", by simp [remoteErrMsg, String.append_assoc]⟩

/-- C9 witness: a valid reset request whose remote call gets a 422 response
yields a 500 whose message is the remote-error message. -/
theorem remote_error_surfaced_witness :
    handle ⟨.undef, .bool true, .num (.fin 5), .undef⟩
        ⟨false, 422, "Unprocessable Entity", "{}", ⟨1, "9.99"⟩⟩ =
      .err500 (remoteErrMsg ⟨false, 422, "Unprocessable Entity", "{}", ⟨1, "9.99"⟩⟩) :=
  (remote_error_surfaced ⟨.undef, .bool true, .num (.fin 5), .undef⟩
    ⟨false, 422, "Unprocessable Entity", "{}", ⟨1, "9.99"⟩⟩ .reset
    (.str PROTECTION_VARIANT_DYNAMIC) (.fin 5) (by decide) rfl).1

/-- C10: the reset branch is taken only on the boolean `true` exactly — a
request whose reset field is any other truthy value (1, "true", …) is
treated as calculation mode: the routing never produces a reset-mode call,
it is unchanged under replacing `new_price`, and subtotal validation
applies. -/
theorem truthy_nonboolean_reset_is_calculation (req : PriceRequest) (v : JSVal)
    (ht : req.reset.truthy = true) (hne : req.reset ≠ .bool true) :
    route req = route ⟨req.subtotal, req.reset, v, req.variant_id⟩ ∧
    (∀ k p, route req ≠ .callRemote .reset k p) ∧
    (validSubtotal req.subtotal = false →
      route req = .badRequest "subtotal must be a positive number (USD)") := by
  have hrt : isResetTrue req.reset = false := isResetTrue_eq_false hne
  refine ⟨?_, ?_, ?_⟩
  · simp [route, hrt]
  · intro k p hcall
    unfold route at hcall
    rw [hrt] at hcall
    simp only [Bool.false_eq_true, if_false] at hcall
    by_cases hv : validSubtotal req.subtotal = true
    · rw [hv] at hcall
      simp only [Bool.not_true, Bool.false_eq_true, if_false] at hcall
      by_cases hlt : JSNum.lt req.subtotal.toNum (.fin PROTECTION_THRESHOLD) = true
      · rw [if_pos hlt] at hcall
        cases hcall
      · rw [if_neg hlt] at hcall
        cases hcall
    · rw [Bool.not_eq_true] at hv
      rw [hv] at hcall
      simp only [Bool.not_false, if_true] at hcall
      cases hcall
  · intro hv
    simp [route, hrt, hv]

/-- C10 witness: `reset = 1` (truthy, not `true`) with a valid subtotal is
routed identically with `new_price` replaced — calculation mode. -/
theorem truthy_nonboolean_reset_is_calculation_witness :
    route ⟨.num (.fin 50), .num (.fin 1), .num (.fin 7), .undef⟩ =
      route ⟨.num (.fin 50), .num (.fin 1), .undef, .undef⟩ :=
  (truthy_nonboolean_reset_is_calculation
    ⟨.num (.fin 50), .num (.fin 1), .num (.fin 7), .undef⟩ .undef
    (by decide) (by decide)).1
